import Mathlib

/-!
Verification of the Ara audit service (confiture-rest-api).

This file is a shallow embedding of `src/audits/audit.service.ts` and
`src/audits/audits.controller.ts`.  The relational store is modelled as
explicit lists of rows (`DB`), Prisma nested writes become pure list
transformations, thrown Prisma errors become `Except PrismaError`, and
JavaScript `number` arithmetic on counts becomes exact rational
arithmetic (`ℚ`), with the non-finite results of a division by zero
(`NaN` / `Infinity`) modelled as `none : Option ℚ`.

The fixed criteria catalog (`CRITERIA`, from `criteria.ts`) and the RGAA
topic list (`rgaa.json`) are reference data not present in the sources;
all definitions are parameterised over them, and none of the claims
below depends on their contents beyond the constant catalog size 106
used by the report code.
-/

/-- `CriterionResultStatus` enum of the Prisma schema. -/
inductive CriterionResultStatus where
  | COMPLIANT
  | NOT_COMPLIANT
  | NOT_APPLICABLE
  | NOT_TESTED
deriving DecidableEq

/-- `CriterionResultUserImpact` enum of the Prisma schema. -/
inductive CriterionResultUserImpact where
  | MINOR
  | MAJOR
  | BLOCKING
deriving DecidableEq

/-- `AuditType` enum of the Prisma schema. -/
inductive AuditType where
  | FAST
  | COMPLEMENTARY
  | FULL
deriving DecidableEq

/-- One entry of the fixed criteria catalog (`CRITERIA` in `criteria.ts`):
a topic number and a criterium number. -/
structure Criterion where
  topic : Nat
  criterium : Nat
deriving DecidableEq

/-- A recipient as carried by the update payload (`UpdateAuditDto`), and as
persisted scoped to one audit; natural key: `email`. -/
structure Recipient where
  name : String
  email : String
deriving DecidableEq

/-- A tool as carried by the update payload; natural key (uniqueness
constraint): `(name, function, url)`. -/
structure Tool where
  name : String
  «function» : String
  url : String
deriving DecidableEq

/-- A test environment as carried by the update payload; the natural key is
the full 7-field uniqueness-constraint tuple. -/
structure TestEnvironment where
  platform : String
  operatingSystem : String
  operatingSystemVersion : String
  assistiveTechnology : String
  assistiveTechnologyVersion : String
  browser : String
  browserVersion : String
deriving DecidableEq

/-- One page of the update payload (`UpdateAuditPage`); `id` is present for
pages that already exist and absent for new pages. -/
structure UpdateAuditPage where
  id : Option Nat
  name : String
  url : String
deriving DecidableEq

/-- Natural key of a `Tool` row: its uniqueness-constraint tuple
`name_function_url` (scoped to the audit). -/
def Tool.key (t : Tool) : String × String × String :=
  (t.name, t.«function», t.url)

/-- Natural key of a `TestEnvironment` row: the uniqueness constraint
covers all seven fields, so the key tuple is the whole record. -/
def TestEnvironment.key (e : TestEnvironment) : TestEnvironment := e

section Upsert

variable {α : Type} {κ : Type} [DecidableEq κ]

/-- Prisma `upsert` on a collection with unique key `k`: if a row with the
key of `x` exists it is overwritten in place (`update: x`), otherwise `x`
is appended (`create: x`). -/
def upsertBy (k : α → κ) (rs : List α) (x : α) : List α :=
  if rs.any (fun r => decide (k r = k x)) then
    rs.map (fun r => if k r = k x then x else r)
  else
    rs ++ [x]

/-- A list of Prisma `upsert`s executed in payload order. -/
def upsertAll (k : α → κ) (rs xs : List α) : List α :=
  xs.foldl (upsertBy k) rs

end Upsert

/-- The nested `recipients` write of `AuditService.updateAudit`:
`deleteMany` of the rows whose `email` is `notIn` the payload emails,
then one `upsert` per payload recipient (keyed by `email`). -/
def updateRecipients (persisted input : List Recipient) : List Recipient :=
  let kept := persisted.filter
    (fun r => (input.map Recipient.email).contains r.email)
  upsertAll Recipient.email kept input

/-- The nested `tools` write of `AuditService.updateAudit`: `deleteMany`
with a filter that is an `OR` of three per-column `notIn` conditions
(`name`, `function`, `url`), then one `upsert` per payload tool keyed by
`name_function_url`.  A persisted row is kept by the delete phase iff
each of its three key columns appears somewhere in the payload's
corresponding column (not necessarily in the same payload tool). -/
def updateTools (persisted input : List Tool) : List Tool :=
  let kept := persisted.filter (fun t =>
    (input.map Tool.name).contains t.name &&
    (input.map Tool.«function»).contains t.«function» &&
    (input.map Tool.url).contains t.url)
  upsertAll Tool.key kept input

/-- The nested `environments` write of `AuditService.updateAudit`:
`deleteMany` with an `OR` of seven per-column `notIn` conditions, then
one `upsert` per payload environment keyed by the full 7-field tuple. -/
def updateEnvironments (persisted input : List TestEnvironment) :
    List TestEnvironment :=
  let kept := persisted.filter (fun e =>
    (input.map TestEnvironment.platform).contains e.platform &&
    (input.map TestEnvironment.operatingSystem).contains e.operatingSystem &&
    (input.map TestEnvironment.operatingSystemVersion).contains e.operatingSystemVersion &&
    (input.map TestEnvironment.assistiveTechnology).contains e.assistiveTechnology &&
    (input.map TestEnvironment.assistiveTechnologyVersion).contains e.assistiveTechnologyVersion &&
    (input.map TestEnvironment.browser).contains e.browser &&
    (input.map TestEnvironment.browserVersion).contains e.browserVersion)
  upsertAll TestEnvironment.key kept input

/-- The last element of `xs` whose key is `c`, if any (used to describe
the net effect of a sequence of upserts). -/
def lastWith {α κ : Type} [DecidableEq κ] (k : α → κ) (xs : List α)
    (c : κ) : Option α :=
  (xs.filter (fun x => decide (k x = c))).getLast?

/-- Replace a row by the last upserted item carrying its key, if any. -/
def substLast {α κ : Type} [DecidableEq κ] (k : α → κ) (xs : List α)
    (r : α) : α :=
  (lastWith k xs (k r)).getD r

/-- An `Audit` row.  Timestamps (`DateTime`) are modelled as natural
numbers; `nanoid` tokens are opaque strings supplied by the caller. -/
structure AuditRow where
  editUniqueId : String
  consultUniqueId : String
  auditType : AuditType
  procedureName : String
  procedureUrl : Option String
  initiator : Option String
  auditorEmail : Option String
  auditorName : Option String
  contactName : Option String
  contactEmail : Option String
  contactFormUrl : Option String
  technologies : List String
  notCompliantContent : Option String
  derogatedContent : Option String
  notInScopeContent : Option String
  publicationDate : Option Nat
  editionDate : Option Nat
deriving DecidableEq

/-- An `AuditTrace` row: the permanent pairing of the two tokens, which
outlives the audit itself. -/
structure AuditTraceRow where
  auditEditUniqueId : String
  auditConsultUniqueId : String
deriving DecidableEq

/-- An `AuditedPage` row. -/
structure PageRow where
  id : Nat
  auditUniqueId : String
  name : String
  url : String
deriving DecidableEq

/-- A materialized `CriterionResult` row (sans the numeric `id`, which no
service code reads). -/
structure ResultRow where
  auditUniqueId : String
  pageUrl : String
  topic : Nat
  criterium : Nat
  status : CriterionResultStatus
  compliantComment : Option String
  errorDescription : Option String
  notApplicableComment : Option String
  recommandation : Option String
  userImpact : Option CriterionResultUserImpact
deriving DecidableEq

/-- A `Recipent` row scoped to its audit. -/
structure RecipientRow where
  auditUniqueId : String
  name : String
  email : String
deriving DecidableEq

/-- A `Tool` row scoped to its audit. -/
structure ToolRow where
  auditUniqueId : String
  name : String
  «function» : String
  url : String
deriving DecidableEq

/-- A `TestEnvironment` row scoped to its audit. -/
structure EnvironmentRow where
  auditUniqueId : String
  platform : String
  operatingSystem : String
  operatingSystemVersion : String
  assistiveTechnology : String
  assistiveTechnologyVersion : String
  browser : String
  browserVersion : String
deriving DecidableEq

/-- The relational store: one list of rows per table used by the audit
service. -/
structure DB where
  audits : List AuditRow
  traces : List AuditTraceRow
  pages : List PageRow
  results : List ResultRow
  recipients : List RecipientRow
  tools : List ToolRow
  environments : List EnvironmentRow
deriving DecidableEq

/-- Prisma errors thrown by the persistence layer.  `p2025` is the
"record required but not found" error; every other error is carried
opaquely. -/
inductive PrismaError where
  | p2025
  | other (code : String)
deriving DecidableEq

/-- The HTTP error signals produced by `AuditsController`. -/
inductive ApiError where
  | notFound
  | gone
  | conflict
deriving DecidableEq

/-- The `catch` block shared by `updateAudit` / `deleteAudit` /
`publishAudit` in `AuditService`: an error whose `code` is `'P2025'` is
swallowed and the function returns `undefined` (here `none`); any other
error is rethrown. -/
def rescueP2025 {α : Type} (r : Except PrismaError α) :
    Except PrismaError (Option α) :=
  match r with
  | .ok a => .ok (some a)
  | .error e => if e = .p2025 then .ok none else .error e

/-- Scope a payload `Recipient` to an audit. -/
def RecipientRow.ofPayload (uid : String) (r : Recipient) : RecipientRow :=
  { auditUniqueId := uid, name := r.name, email := r.email }

/-- Project a persisted recipient row back to the payload shape. -/
def RecipientRow.data (r : RecipientRow) : Recipient :=
  { name := r.name, email := r.email }

/-- Scope a payload `Tool` to an audit. -/
def ToolRow.ofPayload (uid : String) (t : Tool) : ToolRow :=
  { auditUniqueId := uid, name := t.name, «function» := t.«function»,
    url := t.url }

/-- Project a persisted tool row back to the payload shape. -/
def ToolRow.data (t : ToolRow) : Tool :=
  { name := t.name, «function» := t.«function», url := t.url }

/-- Scope a payload `TestEnvironment` to an audit. -/
def EnvironmentRow.ofPayload (uid : String) (e : TestEnvironment) :
    EnvironmentRow :=
  { auditUniqueId := uid, platform := e.platform,
    operatingSystem := e.operatingSystem,
    operatingSystemVersion := e.operatingSystemVersion,
    assistiveTechnology := e.assistiveTechnology,
    assistiveTechnologyVersion := e.assistiveTechnologyVersion,
    browser := e.browser, browserVersion := e.browserVersion }

/-- Project a persisted environment row back to the payload shape. -/
def EnvironmentRow.data (e : EnvironmentRow) : TestEnvironment :=
  { platform := e.platform, operatingSystem := e.operatingSystem,
    operatingSystemVersion := e.operatingSystemVersion,
    assistiveTechnology := e.assistiveTechnology,
    assistiveTechnologyVersion := e.assistiveTechnologyVersion,
    browser := e.browser, browserVersion := e.browserVersion }

/-- Modelled from the spec: `CreateAuditDto` (`create-audit(metadata,
recipients)`); the DTO source file is not under `src/`, so it carries the
scalar metadata copied by `AuditService.createAudit` plus the initial
recipients. -/
structure CreateAuditDtoM where
  auditType : AuditType
  procedureName : String
  procedureUrl : Option String
  initiator : Option String
  auditorEmail : Option String
  auditorName : Option String
  contactName : Option String
  contactEmail : Option String
  contactFormUrl : Option String
  technologies : List String
  recipients : List Recipient
deriving DecidableEq

/-- `AuditService.createAudit`: inserts a fresh `Audit` row together with
its `createMany` recipients and its linked `AuditTrace` row.  The two
`nanoid()` tokens are passed in explicitly. -/
def createAudit (db : DB) (dto : CreateAuditDtoM)
    (editUniqueId consultUniqueId : String) : DB :=
  { db with
    audits := db.audits ++
      [{ editUniqueId := editUniqueId, consultUniqueId := consultUniqueId,
         auditType := dto.auditType,
         procedureName := dto.procedureName,
         procedureUrl := dto.procedureUrl,
         initiator := dto.initiator,
         auditorEmail := dto.auditorEmail, auditorName := dto.auditorName,
         contactName := dto.contactName, contactEmail := dto.contactEmail,
         contactFormUrl := dto.contactFormUrl,
         technologies := dto.technologies,
         notCompliantContent := none, derogatedContent := none,
         notInScopeContent := none,
         publicationDate := none, editionDate := none }],
    traces := db.traces ++
      [{ auditEditUniqueId := editUniqueId,
         auditConsultUniqueId := consultUniqueId }],
    recipients := db.recipients ++
      (dto.recipients.map (RecipientRow.ofPayload editUniqueId)) }

/-- `AuditService.getAuditWithEditUniqueId`: `findUnique` on the edit
token. -/
def getAuditWithEditUniqueId (db : DB) (uniqueId : String) :
    Option AuditRow :=
  db.audits.find? (fun a => decide (a.editUniqueId = uniqueId))

/-- The materialized criterion results of one audit (the
`criterionResult.findMany` filtered on the audit's unique id). -/
def auditResults (db : DB) (uniqueId : String) : List ResultRow :=
  db.results.filter (fun r => decide (r.auditUniqueId = uniqueId))

/-- The shape returned by `getResultsWithEditUniqueId`
(`Omit<CriterionResult, 'id' | 'auditUniqueId'>`). -/
structure ResultEntry where
  status : CriterionResultStatus
  compliantComment : Option String
  errorDescription : Option String
  userImpact : Option CriterionResultUserImpact
  recommandation : Option String
  notApplicableComment : Option String
  topic : Nat
  criterium : Nat
  pageUrl : String
deriving DecidableEq

/-- Projection of a stored row to the returned entry shape. -/
def ResultRow.toEntry (r : ResultRow) : ResultEntry :=
  { status := r.status, compliantComment := r.compliantComment,
    errorDescription := r.errorDescription, userImpact := r.userImpact,
    recommandation := r.recommandation,
    notApplicableComment := r.notApplicableComment,
    topic := r.topic, criterium := r.criterium, pageUrl := r.pageUrl }

/-- The body of the `CRITERIA.map` in `getResultsWithEditUniqueId`: the
first stored result matching `(page.url, criterion.topic,
criterion.criterium)` if any, otherwise the `NOT_TESTED` placeholder
with empty comment fields. -/
def resultOrPlaceholder (existingResults : List ResultRow) (page : PageRow)
    (criterion : Criterion) : ResultEntry :=
  match existingResults.find? (fun result =>
      decide (result.pageUrl = page.url ∧ result.topic = criterion.topic ∧
        result.criterium = criterion.criterium)) with
  | some existingResult => existingResult.toEntry
  | none =>
    { status := .NOT_TESTED,
      compliantComment := none, errorDescription := none,
      userImpact := none, recommandation := none,
      notApplicableComment := none,
      topic := criterion.topic, criterium := criterion.criterium,
      pageUrl := page.url }

/-- `AuditService.getResultsWithEditUniqueId`: fetches the audit's pages
and its stored results and synthesizes one entry per
(page, catalog criterion) pair; `criteria` is the fixed catalog
(`CRITERIA`). -/
def getResultsWithEditUniqueId (criteria : List Criterion) (db : DB)
    (uniqueId : String) : List ResultEntry :=
  let pages := db.pages.filter (fun p => decide (p.auditUniqueId = uniqueId))
  let existingResults := auditResults db uniqueId
  pages.flatMap (fun page =>
    criteria.map (fun criterion =>
      resultOrPlaceholder existingResults page criterion))

/-- `AuditService.updateAuditEditDate`: `updateMany` stamping
`editionDate` with the current time on the audit, but only when it has a
non-null `publicationDate` (i.e. it is already published). -/
def updateAuditEditDate (uniqueId : String) (now : Nat)
    (audits : List AuditRow) : List AuditRow :=
  audits.map (fun a =>
    if a.editUniqueId = uniqueId ∧ a.publicationDate ≠ none then
      { a with editionDate := some now }
    else a)

/-- The `UpdateAuditDto` payload: the scalar fields copied by
`updateAudit` plus the full desired state of the four nested
collections. -/
structure UpdateAuditDtoM where
  procedureName : String
  procedureUrl : Option String
  initiator : Option String
  auditorEmail : Option String
  auditorName : Option String
  contactName : Option String
  contactEmail : Option String
  contactFormUrl : Option String
  auditType : AuditType
  notCompliantContent : Option String
  derogatedContent : Option String
  notInScopeContent : Option String
  recipients : List Recipient
  tools : List Tool
  environments : List TestEnvironment
  pages : List UpdateAuditPage
deriving DecidableEq

/-- Copy of the scalar fields of the `audit.update` data object onto the
audit row. -/
def applyAuditScalars (data : UpdateAuditDtoM) (a : AuditRow) : AuditRow :=
  { a with
    procedureName := data.procedureName,
    procedureUrl := data.procedureUrl,
    initiator := data.initiator,
    auditorEmail := data.auditorEmail, auditorName := data.auditorName,
    contactName := data.contactName, contactEmail := data.contactEmail,
    contactFormUrl := data.contactFormUrl,
    auditType := data.auditType,
    notCompliantContent := data.notCompliantContent,
    derogatedContent := data.derogatedContent,
    notInScopeContent := data.notInScopeContent }

/-- The nested `pages` write of `updateAudit`: `deleteMany` of the
audit's pages whose `id` is `notIn` the ids carried by the payload, an
`update` of name/url for each payload page that carries an id, and a
`createMany` for the id-less payload pages (fresh ids are
`nextId, nextId+1, ...`). -/
def updateAuditPages (uniqueId : String) (data : UpdateAuditDtoM)
    (nextId : Nat) (pages : List PageRow) : List PageRow :=
  let updatedPages := data.pages.filter (fun p => p.id.isSome)
  let newPages := data.pages.filter (fun p => ¬ p.id.isSome)
  let kept := pages.filter (fun p =>
    decide (p.auditUniqueId ≠ uniqueId) ||
    updatedPages.any (fun up => decide (up.id = some p.id)))
  let updated := kept.map (fun p =>
    if p.auditUniqueId = uniqueId then
      match updatedPages.find? (fun up => decide (up.id = some p.id)) with
      | some up => { p with name := up.name, url := up.url }
      | none => p
    else p)
  updated ++ (newPages.enum.map (fun e =>
    { id := nextId + e.1, auditUniqueId := uniqueId,
      name := e.2.name, url := e.2.url }))

/-- The `prisma.$transaction` body of `AuditService.updateAudit`: the
`audit.update` (scalar fields plus the four nested collection writes)
followed by `updateAuditEditDate`.  It throws `P2025` when no audit with
the given edit token exists, and also when a payload page carries an id
that matches none of the audit's persisted pages (the nested `update`
finds no record); the transaction is atomic, so an error leaves the
store untouched. -/
def auditUpdateTx (db : DB) (uniqueId : String) (data : UpdateAuditDtoM)
    (nextId : Nat) (now : Nat) : Except PrismaError DB :=
  match db.audits.find? (fun a => decide (a.editUniqueId = uniqueId)) with
  | none => .error .p2025
  | some _ =>
    if (data.pages.filter (fun p => p.id.isSome)).all (fun up =>
        db.pages.any (fun p =>
          decide (p.auditUniqueId = uniqueId) &&
          decide (up.id = some p.id))) then
      .ok
        { db with
          audits := updateAuditEditDate uniqueId now
            (db.audits.map (fun a =>
              if a.editUniqueId = uniqueId then applyAuditScalars data a
              else a)),
          recipients :=
            db.recipients.filter
              (fun r => decide (r.auditUniqueId ≠ uniqueId)) ++
            (updateRecipients
              ((db.recipients.filter
                  (fun r => decide (r.auditUniqueId = uniqueId))).map
                RecipientRow.data)
              data.recipients).map (RecipientRow.ofPayload uniqueId),
          tools :=
            db.tools.filter
              (fun t => decide (t.auditUniqueId ≠ uniqueId)) ++
            (updateTools
              ((db.tools.filter
                  (fun t => decide (t.auditUniqueId = uniqueId))).map
                ToolRow.data)
              data.tools).map (ToolRow.ofPayload uniqueId),
          environments :=
            db.environments.filter
              (fun e => decide (e.auditUniqueId ≠ uniqueId)) ++
            (updateEnvironments
              ((db.environments.filter
                  (fun e => decide (e.auditUniqueId = uniqueId))).map
                EnvironmentRow.data)
              data.environments).map (EnvironmentRow.ofPayload uniqueId),
          pages := updateAuditPages uniqueId data nextId db.pages }
    else .error .p2025

/-- `AuditService.updateAudit`: the transaction above wrapped in the
`try/catch` that converts a `P2025` error into `undefined` (`none`).
The HTTP layer returns the updated audit object; here the updated store
is returned, which is the state the claims are about. -/
def updateAudit (db : DB) (uniqueId : String) (data : UpdateAuditDtoM)
    (nextId : Nat) (now : Nat) : Except PrismaError (Option DB) :=
  rescueP2025 (auditUpdateTx db uniqueId data nextId now)

/-- One element of `UpdateResultsDto.data`. -/
structure UpdateResultItem where
  pageUrl : String
  topic : Nat
  criterium : Nat
  status : CriterionResultStatus
  compliantComment : Option String
  errorDescription : Option String
  notApplicableComment : Option String
  recommandation : Option String
  userImpact : Option CriterionResultUserImpact
deriving DecidableEq

/-- The row written by one `criterionResult.upsert` of `updateResults`
(the same `data` object is used for `create` and `update`). -/
def UpdateResultItem.row (uniqueId : String) (item : UpdateResultItem) :
    ResultRow :=
  { auditUniqueId := uniqueId, pageUrl := item.pageUrl,
    topic := item.topic, criterium := item.criterium,
    status := item.status, compliantComment := item.compliantComment,
    errorDescription := item.errorDescription,
    notApplicableComment := item.notApplicableComment,
    recommandation := item.recommandation, userImpact := item.userImpact }

/-- The upsert key `auditUniqueId_pageUrl_topic_criterium` of a
criterion result row. -/
def ResultRow.key (r : ResultRow) : String × String × Nat × Nat :=
  (r.auditUniqueId, r.pageUrl, r.topic, r.criterium)

/-- `AuditService.updateResults`: one `criterionResult.upsert` per batch
item plus `updateAuditEditDate`, all in one `prisma.$transaction`.  The
`page.connect` of an item whose `pageUrl` matches none of the audit's
pages throws `P2025`; atomicity makes a failed transaction leave the
store untouched. -/
def updateResults (db : DB) (uniqueId : String)
    (body : List UpdateResultItem) (now : Nat) : Except PrismaError DB :=
  if body.all (fun item =>
      db.pages.any (fun p =>
        decide (p.auditUniqueId = uniqueId ∧ p.url = item.pageUrl))) then
    .ok
      { db with
        results := upsertAll ResultRow.key db.results
          (body.map (UpdateResultItem.row uniqueId)),
        audits := updateAuditEditDate uniqueId now db.audits }
  else .error .p2025

/-- `AuditService.deleteAudit`: `audit.delete` on the edit token (with
cascade deletion of the audit's child rows; the `AuditTrace` row is not
cascaded and survives).  Returns whether an audit was deleted; a `P2025`
(no such audit) is caught and yields `false`. -/
def deleteAudit (db : DB) (uniqueId : String) : DB × Bool :=
  if db.audits.any (fun a => decide (a.editUniqueId = uniqueId)) then
    ({ db with
       audits := db.audits.filter
         (fun a => decide (a.editUniqueId ≠ uniqueId)),
       pages := db.pages.filter
         (fun p => decide (p.auditUniqueId ≠ uniqueId)),
       results := db.results.filter
         (fun r => decide (r.auditUniqueId ≠ uniqueId)),
       recipients := db.recipients.filter
         (fun r => decide (r.auditUniqueId ≠ uniqueId)),
       tools := db.tools.filter
         (fun t => decide (t.auditUniqueId ≠ uniqueId)),
       environments := db.environments.filter
         (fun e => decide (e.auditUniqueId ≠ uniqueId)) }, true)
  else (db, false)

/-- `AuditService.checkIfAuditWasDeleted`: `true` iff an `AuditTrace`
row with the given edit token exists (`findUniqueOrThrow` succeeding). -/
def checkIfAuditWasDeleted (db : DB) (uniqueId : String) : Bool :=
  db.traces.any (fun t => decide (t.auditEditUniqueId = uniqueId))

/-- The `audit.update` inside `AuditService.publishAudit`: sets
`publicationDate` to the current time and `editionDate` to `null`;
throws `P2025` when no audit with the edit token exists. -/
def publishAuditTx (db : DB) (uniqueId : String) (now : Nat) :
    Except PrismaError (DB × AuditRow) :=
  match db.audits.find? (fun a => decide (a.editUniqueId = uniqueId)) with
  | none => .error .p2025
  | some a =>
    .ok
      ({ db with
         audits := db.audits.map (fun b =>
           if b.editUniqueId = uniqueId then
             { b with publicationDate := some now, editionDate := none }
           else b) },
       { a with publicationDate := some now, editionDate := none })

/-- `AuditService.publishAudit`: the update wrapped in the `try/catch`
converting `P2025` to `undefined`. -/
def publishAudit (db : DB) (uniqueId : String) (now : Nat) :
    Except PrismaError (Option (DB × AuditRow)) :=
  rescueP2025 (publishAuditTx db uniqueId now)

/-- `AuditService.isAuditComplete`: counts the audit's materialized
result rows with status `NOT_TESTED` and returns whether the count is
zero. -/
def isAuditComplete (db : DB) (uniqueId : String) : Bool :=
  decide ((db.results.filter (fun r =>
    decide (r.auditUniqueId = uniqueId ∧
      r.status = CriterionResultStatus.NOT_TESTED))).length = 0)

/-- `AuditsController.sendAuditNotFoundStatus`: 410 Gone when a trace
row with the token exists, 404 Not Found otherwise. -/
def sendAuditNotFoundStatus (db : DB) (editUniqueId : String) : ApiError :=
  if checkIfAuditWasDeleted db editUniqueId then .gone else .notFound

/-- `AuditsController.getAudit` (`GET /audits/:uniqueId`). -/
def controllerGetAudit (db : DB) (uniqueId : String) :
    Except ApiError AuditRow :=
  match getAuditWithEditUniqueId db uniqueId with
  | some audit => .ok audit
  | none => .error (sendAuditNotFoundStatus db uniqueId)

/-- The value of `await this.auditService.getResultsWithEditUniqueId(...)`
as the controller observes it: the service always resolves to an array,
never to `null`/`undefined`, so the wrapper is always `some`. -/
def getResultsValue (criteria : List Criterion) (db : DB)
    (uniqueId : String) : Option (List ResultEntry) :=
  some (getResultsWithEditUniqueId criteria db uniqueId)

/-- `AuditsController.getAuditResults` (`GET /audits/:uniqueId/results`):
the `if (!results)` guard sends the not-found/gone status, otherwise the
array is returned. -/
def controllerGetAuditResults (criteria : List Criterion) (db : DB)
    (uniqueId : String) : Except ApiError (List ResultEntry) :=
  match getResultsValue criteria db uniqueId with
  | none => .error (sendAuditNotFoundStatus db uniqueId)
  | some results => .ok results

/-- `AuditsController.updateAuditResults`
(`PATCH /audits/:uniqueId/results`): looks the audit up first and sends
the not-found/gone status when it is absent; otherwise runs the service
batch, whose persistence errors propagate unchanged (the service has no
`catch`). -/
def controllerUpdateAuditResults (db : DB) (uniqueId : String)
    (body : List UpdateResultItem) (now : Nat) :
    Except (ApiError ⊕ PrismaError) DB :=
  match getAuditWithEditUniqueId db uniqueId with
  | none => .error (.inl (sendAuditNotFoundStatus db uniqueId))
  | some _ =>
    match updateResults db uniqueId body now with
    | .ok db' => .ok db'
    | .error e => .error (.inr e)

/-- `AuditsController.publishAudit` (`PUT /audits/:uniqueId/publish`):
throws Conflict when the completion check fails, then publishes; an
`undefined` from the service becomes the not-found/gone status. -/
def controllerPublishAudit (db : DB) (uniqueId : String) (now : Nat) :
    Except (ApiError ⊕ PrismaError) (DB × AuditRow) :=
  if isAuditComplete db uniqueId then
    match publishAudit db uniqueId now with
    | .ok (some r) => .ok r
    | .ok none => .error (.inl (sendAuditNotFoundStatus db uniqueId))
    | .error e => .error (.inr e)
  else .error (.inl .conflict)

/-- JavaScript division on counts: the finite quotient, or `none` for
the non-finite results (`0/0 = NaN`, `x/0 = Infinity`) produced by a
zero denominator. -/
def jsDiv (a b : ℚ) : Option ℚ :=
  if b = 0 then none else some (a / b)

/-- `Math.round` on a (non-negative) finite number: half-up rounding. -/
def jsRound (q : ℚ) : ℤ := ⌊q + 1 / 2⌋

/-- The `groupedCriteria` reduce of `getAuditReportData` groups the
stored rows by the key `` `${topic}.${criterium}` ``; the record keys in
insertion order. -/
def groupKeys (results : List ResultRow) : List (Nat × Nat) :=
  results.foldl (fun acc c =>
    if (c.topic, c.criterium) ∈ acc then acc
    else acc ++ [(c.topic, c.criterium)]) []

/-- The groups of `groupedCriteria`: for each key in insertion order,
the stored rows carrying it, in storage order. -/
def groupedCriteria (results : List ResultRow) : List (List ResultRow) :=
  (groupKeys results).map (fun key =>
    results.filter (fun c => decide ((c.topic, c.criterium) = key)))

/-- `applicableCriteria`: the groups in which some result's status is
not `NOT_APPLICABLE`. -/
def applicableCriteria (results : List ResultRow) : List (List ResultRow) :=
  (groupedCriteria results).filter (fun criteria =>
    criteria.any (fun c =>
      decide (c.status ≠ CriterionResultStatus.NOT_APPLICABLE)))

/-- `compliantCriteria`: the applicable groups in which every result is
`COMPLIANT` or `NOT_APPLICABLE`. -/
def compliantCriteria (results : List ResultRow) : List (List ResultRow) :=
  (applicableCriteria results).filter (fun criteria =>
    criteria.all (fun c =>
      decide (c.status = CriterionResultStatus.COMPLIANT ∨
        c.status = CriterionResultStatus.NOT_APPLICABLE)))

/-- `accessibilityRate = Math.round((compliantCriteria.length /
applicableCriteria.length) * 100)`; with zero applicable groups the
division yields `NaN` (`none`) and `Math.round` keeps it. -/
def accessibilityRate (results : List ResultRow) : Option ℤ :=
  (jsDiv ((compliantCriteria results).length : ℚ)
    ((applicableCriteria results).length : ℚ)).map (fun q =>
      jsRound (q * 100))

/-- The fixed denominator used by the per-page distributions (the size
of the full criteria catalog, hard-coded as `106` in
`getAuditReportData`). -/
def totalCriteriaCount : Nat := 106

/-- One `{ raw, percentage }` pair of the report distributions. -/
structure StatusDist where
  raw : Nat
  percentage : Option ℚ
deriving DecidableEq

/-- One entry of `pageDistributions` / `topicDistributions`. -/
structure ReportDistribution where
  name : String
  compliant : StatusDist
  notApplicable : StatusDist
  notCompliant : StatusDist
deriving DecidableEq

/-- `results.filter(r => r.pageUrl === p.url && r.status === s).length`. -/
def countPageStatus (results : List ResultRow) (url : String)
    (s : CriterionResultStatus) : Nat :=
  (results.filter (fun r => decide (r.pageUrl = url ∧ r.status = s))).length

/-- The per-page percentage of `getAuditReportData`:
`(count / 106) * 100`. -/
def pageStatusPercentage (results : List ResultRow) (url : String)
    (s : CriterionResultStatus) : Option ℚ :=
  (jsDiv (countPageStatus results url s : ℚ)
    (totalCriteriaCount : ℚ)).map (fun q => q * 100)

/-- The `pageDistributions` array of the report: one entry per audit
page. -/
def pageDistributions (results : List ResultRow) (pages : List PageRow) :
    List ReportDistribution :=
  pages.map (fun p =>
    { name := p.name,
      compliant :=
        { raw := countPageStatus results p.url .COMPLIANT,
          percentage := pageStatusPercentage results p.url .COMPLIANT },
      notApplicable :=
        { raw := countPageStatus results p.url .NOT_APPLICABLE,
          percentage := pageStatusPercentage results p.url .NOT_APPLICABLE },
      notCompliant :=
        { raw := countPageStatus results p.url .NOT_COMPLIANT,
          percentage :=
            pageStatusPercentage results p.url .NOT_COMPLIANT } })

/-- One entry of the RGAA topic reference list (`rgaa.json`): a topic
name and its number. -/
structure RgaaTopic where
  topic : String
  number : Nat
deriving DecidableEq

/-- `results.filter(r => r.topic === t.number && r.status === s).length`. -/
def countTopicStatus (results : List ResultRow) (number : Nat)
    (s : CriterionResultStatus) : Nat :=
  (results.filter (fun r =>
    decide (r.topic = number ∧ r.status = s))).length

/-- `results.filter(r => r.topic === t.number).length`: the denominator
of the per-topic percentages. -/
def topicResultCount (results : List ResultRow) (number : Nat) : Nat :=
  (results.filter (fun r => decide (r.topic = number))).length

/-- The per-topic percentage of `getAuditReportData`:
`(count-with-status / count-in-topic) * 100`. -/
def topicStatusPercentage (results : List ResultRow) (number : Nat)
    (s : CriterionResultStatus) : Option ℚ :=
  (jsDiv (countTopicStatus results number s : ℚ)
    (topicResultCount results number : ℚ)).map (fun q => q * 100)

/-- The `topicDistributions` array of the report: one entry per RGAA
topic. -/
def topicDistributions (results : List ResultRow)
    (topics : List RgaaTopic) : List ReportDistribution :=
  topics.map (fun t =>
    { name := t.topic,
      compliant :=
        { raw := countTopicStatus results t.number .COMPLIANT,
          percentage :=
            topicStatusPercentage results t.number .COMPLIANT },
      notApplicable :=
        { raw := countTopicStatus results t.number .NOT_APPLICABLE,
          percentage :=
            topicStatusPercentage results t.number .NOT_APPLICABLE },
      notCompliant :=
        { raw := countTopicStatus results t.number .NOT_COMPLIANT,
          percentage :=
            topicStatusPercentage results t.number .NOT_COMPLIANT } })

/-- Decidable equality of operation outcomes, so that concrete runs can
be evaluated by `decide`. -/
instance {ε α : Type} [DecidableEq ε] [DecidableEq α] :
    DecidableEq (Except ε α) := fun x y =>
  match x, y with
  | .ok a, .ok b =>
    decidable_of_iff (a = b) ⟨fun h => by rw [h], fun h => by injection h⟩
  | .error a, .error b =>
    decidable_of_iff (a = b) ⟨fun h => by rw [h], fun h => by injection h⟩
  | .ok _, .error _ => isFalse (fun h => Except.noConfusion h)
  | .error _, .ok _ => isFalse (fun h => Except.noConfusion h)

/-- Two successive `updateResults` calls with the same batch, the second
on the state produced by the first. -/
def updateResultsTwice (db : DB) (uniqueId : String)
    (body : List UpdateResultItem) (now₁ now₂ : Nat) :
    Except PrismaError DB :=
  (updateResults db uniqueId body now₁).bind (fun db' =>
    updateResults db' uniqueId body now₂)

/-- The empty store. -/
def emptyDB : DB :=
  { audits := [], traces := [], pages := [], results := [],
    recipients := [], tools := [], environments := [] }

/-- An update payload with empty nested collections (concrete input for
witnesses). -/
def emptyUpdatePayload : UpdateAuditDtoM :=
  { procedureName := "p", procedureUrl := none, initiator := none,
    auditorEmail := none, auditorName := none, contactName := none,
    contactEmail := none, contactFormUrl := none, auditType := .FULL,
    notCompliantContent := none, derogatedContent := none,
    notInScopeContent := none, recipients := [], tools := [],
    environments := [], pages := [] }

/-- A stored result row with the given topic, criterium and status
(concrete inputs for witnesses). -/
def mkResult (topic criterium : Nat) (status : CriterionResultStatus) :
    ResultRow :=
  { auditUniqueId := "e", pageUrl := "u", topic := topic,
    criterium := criterium, status := status, compliantComment := none,
    errorDescription := none, notApplicableComment := none,
    recommandation := none, userImpact := none }

/-- Ten stored results in ten distinct (topic, criterium) groups, seven
of them compliant: the spec's accessibility-rate example. -/
def sampleResults : List ResultRow :=
  [mkResult 1 1 .COMPLIANT, mkResult 2 1 .COMPLIANT,
   mkResult 3 1 .COMPLIANT, mkResult 4 1 .COMPLIANT,
   mkResult 5 1 .COMPLIANT, mkResult 6 1 .COMPLIANT,
   mkResult 7 1 .COMPLIANT, mkResult 8 1 .NOT_COMPLIANT,
   mkResult 9 1 .NOT_COMPLIANT, mkResult 10 1 .NOT_COMPLIANT]

/-- A store whose only group is entirely `NOT_APPLICABLE`: zero
applicable groups. -/
def sampleAllNotApplicable : List ResultRow :=
  [mkResult 1 1 .NOT_APPLICABLE]

/-- A published audit (concrete input for witnesses and
counterexamples). -/
def sampleAudit : AuditRow :=
  { editUniqueId := "e", consultUniqueId := "c", auditType := .FULL,
    procedureName := "p", procedureUrl := none, initiator := none,
    auditorEmail := none, auditorName := none, contactName := none,
    contactEmail := none, contactFormUrl := none, technologies := [],
    notCompliantContent := none, derogatedContent := none,
    notInScopeContent := none, publicationDate := some 0,
    editionDate := none }

/-- A store holding the published audit `"e"` with one page and no
materialized results. -/
def publishedDB : DB :=
  { audits := [sampleAudit],
    traces := [{ auditEditUniqueId := "e", auditConsultUniqueId := "c" }],
    pages := [{ id := 1, auditUniqueId := "e", name := "home",
                url := "u" }],
    results := [], recipients := [], tools := [], environments := [] }

/-- One batch item scoring criterion (1, 1) of page `"u"`. -/
def sampleItem : UpdateResultItem :=
  { pageUrl := "u", topic := 1, criterium := 1, status := .COMPLIANT,
    compliantComment := none, errorDescription := none,
    notApplicableComment := none, recommandation := none,
    userImpact := none }

/-- The batch holding `sampleItem`. -/
def sampleBatch : List UpdateResultItem := [sampleItem]

/-- The state after applying `sampleBatch` to `publishedDB` at time 1:
the upserted row is created and, the audit being published, its
`editionDate` is stamped. -/
def publishedDB1 : DB :=
  { publishedDB with
    results := [sampleItem.row "e"],
    audits := [{ sampleAudit with editionDate := some 1 }] }

/-- A two-criteria catalog (concrete input for witnesses). -/
def sampleCatalog : List Criterion := [⟨1, 1⟩, ⟨1, 2⟩]

section UpsertLemmas

variable {α : Type} {κ : Type} [DecidableEq κ] {k : α → κ}

/-- An upsert preserves every key already present. -/
lemma upsertBy_hasKey_of {rs : List α} {x : α} {c : κ}
    (h : ∃ r ∈ rs, k r = c) : ∃ r ∈ upsertBy k rs x, k r = c := by
  obtain ⟨r, hr, hkr⟩ := h
  unfold upsertBy
  split
  · refine ⟨if k r = k x then x else r, List.mem_map.mpr ⟨r, hr, rfl⟩, ?_⟩
    split
    · next h' => rw [← h', hkr]
    · exact hkr
  · exact ⟨r, List.mem_append.mpr (Or.inl hr), hkr⟩

/-- An upsert makes the upserted item's key present. -/
lemma upsertBy_hasKey_self (rs : List α) (x : α) :
    ∃ r ∈ upsertBy k rs x, k r = k x := by
  unfold upsertBy
  split
  · next h =>
    obtain ⟨r, hr, hkr⟩ := List.any_eq_true.mp h
    refine ⟨x, List.mem_map.mpr ⟨r, hr, ?_⟩, rfl⟩
    simp [of_decide_eq_true hkr]
  · exact ⟨x, List.mem_append.mpr (Or.inr (List.mem_singleton.mpr rfl)), rfl⟩

/-- A sequence of upserts preserves every key already present. -/
lemma upsertAll_hasKey_of (xs : List α) {rs : List α} {c : κ}
    (h : ∃ r ∈ rs, k r = c) : ∃ r ∈ upsertAll k rs xs, k r = c := by
  induction xs generalizing rs with
  | nil => exact h
  | cons x xs ih => exact ih (upsertBy_hasKey_of h)

/-- After a sequence of upserts, every upserted item's key is present. -/
lemma upsertAll_hasKey_input (xs : List α) (rs : List α) :
    ∀ x ∈ xs, ∃ r ∈ upsertAll k rs xs, k r = k x := by
  induction xs generalizing rs with
  | nil => intro x hx; cases hx
  | cons y ys ih =>
    intro x hx
    rcases List.mem_cons.mp hx with rfl | hx
    · exact upsertAll_hasKey_of ys (upsertBy_hasKey_self rs x)
    · exact ih (upsertBy k rs y) x hx

/-- Every row of a fold of upserts is either the last upserted item with
its key, or an original row whose key was never upserted. -/
lemma mem_upsertAll_lastWith (xs : List α) :
    ∀ (rs : List α) (r : α), r ∈ upsertAll k rs xs →
      lastWith k xs (k r) = some r ∨
        (r ∈ rs ∧ lastWith k xs (k r) = none) := by
  induction xs with
  | nil => intro rs r hr; exact Or.inr ⟨hr, rfl⟩
  | cons x xs ih =>
    intro rs r hr
    rcases ih (upsertBy k rs x) r hr with h | ⟨hmem, hnone⟩
    · left
      unfold lastWith at h ⊢
      rw [List.filter_cons]
      split
      · have : (xs.filter (fun y => decide (k y = k r))) ≠ [] := by
          intro hnil
          rw [hnil] at h
          exact Option.noConfusion h
        obtain ⟨b, t, hbt⟩ := List.exists_cons_of_ne_nil this
        rw [hbt] at h ⊢
        rw [List.getLast?_cons_cons]
        exact h
      · exact h
    · have hfilternil :
          xs.filter (fun y => decide (k y = k r)) = [] := by
        unfold lastWith at hnone
        exact List.getLast?_eq_none.mp hnone
      unfold upsertBy at hmem
      split at hmem
      · rcases List.mem_map.mp hmem with ⟨r₀, hr₀, heq⟩
        by_cases hk0 : k r₀ = k x
        · rw [if_pos hk0] at heq
          subst heq
          left
          unfold lastWith
          rw [List.filter_cons, if_pos (by simp), hfilternil]
          rfl
        · rw [if_neg hk0] at heq
          subst heq
          right
          refine ⟨hr₀, ?_⟩
          unfold lastWith
          rw [List.filter_cons,
            if_neg (by simpa using fun h' => hk0 (Eq.symm h')),
            hfilternil]
          rfl
      · next hany =>
        rcases List.mem_append.mp hmem with hrs | hx
        · have hne : k r ≠ k x := by
            intro hkk
            exact hany (List.any_eq_true.mpr ⟨r, hrs, by simp [hkk]⟩)
          right
          refine ⟨hrs, ?_⟩
          unfold lastWith
          rw [List.filter_cons,
            if_neg (by simpa using fun h' => hne (Eq.symm h')),
            hfilternil]
          rfl
        · left
          have hrx : r = x := List.mem_singleton.mp hx
          subst hrx
          unfold lastWith
          rw [List.filter_cons, if_pos (by simp), hfilternil]
          rfl

/-- Mapping a function that fixes every member is the identity. -/
lemma map_id_of_mem {l : List α} {f : α → α}
    (h : ∀ a ∈ l, f a = a) : l.map f = l :=
  (List.map_congr_left h).trans (by simpa using List.map_id l)

/-- When every upserted key is already present, a fold of upserts acts
as a pointwise replacement by the last item carrying each row's key. -/
lemma upsertAll_eq_map_substLast (xs : List α) :
    ∀ (rs : List α), (∀ x ∈ xs, ∃ r ∈ rs, k r = k x) →
      upsertAll k rs xs = rs.map (substLast k xs) := by
  induction xs with
  | nil =>
    intro rs _
    exact (map_id_of_mem (fun a _ => rfl)).symm
  | cons x xs ih =>
    intro rs hkeys
    obtain ⟨r₀, hr₀, hkr₀⟩ := hkeys x (List.mem_cons_self x xs)
    have hany : rs.any (fun r => decide (k r = k x)) = true :=
      List.any_eq_true.mpr ⟨r₀, hr₀, by simp [hkr₀]⟩
    have hstep :
        upsertAll k rs (x :: xs) =
          upsertAll k (rs.map (fun r => if k r = k x then x else r)) xs := by
      unfold upsertAll
      rw [List.foldl_cons]
      unfold upsertBy
      rw [if_pos hany]
    rw [hstep]
    have hkeys' : ∀ y ∈ xs,
        ∃ r ∈ rs.map (fun r => if k r = k x then x else r), k r = k y := by
      intro y hy
      obtain ⟨r, hr, hkr⟩ := hkeys y (List.mem_cons_of_mem x hy)
      refine ⟨if k r = k x then x else r, List.mem_map.mpr ⟨r, hr, rfl⟩, ?_⟩
      split
      · next h' => rw [← h', hkr]
      · exact hkr
    rw [ih _ hkeys', List.map_map]
    refine List.map_congr_left (fun a _ => ?_)
    show substLast k xs (if k a = k x then x else a) = substLast k (x :: xs) a
    by_cases h : k a = k x
    · rw [if_pos h]
      unfold substLast lastWith
      rw [List.filter_cons, if_pos (by simp [h])]
      cases hf : xs.filter (fun y => decide (k y = k a)) with
      | nil =>
        have hfx : xs.filter (fun y => decide (k y = k x)) = [] := by
          rw [← h]; exact hf
        rw [hfx]
        rfl
      | cons b t =>
        have hfx : xs.filter (fun y => decide (k y = k x)) = b :: t := by
          rw [← h]; exact hf
        rw [hfx, List.getLast?_cons_cons]
        cases hlast : (b :: t).getLast? with
        | none =>
          exact absurd (List.getLast?_eq_none.mp hlast) (by simp)
        | some z => rfl
    · rw [if_neg h]
      unfold substLast lastWith
      rw [List.filter_cons,
        if_neg (by simpa using fun h' => h (Eq.symm h'))]

/-- Replaying the same sequence of upserts on its own output changes
nothing: each item overwrites a row with its own data. -/
lemma upsertAll_idem (rs xs : List α) :
    upsertAll k (upsertAll k rs xs) xs = upsertAll k rs xs := by
  rw [upsertAll_eq_map_substLast xs (upsertAll k rs xs)
    (upsertAll_hasKey_input xs rs)]
  refine map_id_of_mem (fun r hr => ?_)
  rcases mem_upsertAll_lastWith xs rs r hr with h | ⟨_, h⟩
  · unfold substLast
    rw [h]
    rfl
  · unfold substLast
    rw [h]
    rfl

end UpsertLemmas

/-- One flat-mapped `criteria.map` block per page: the synthesized matrix
has `pages × criteria` entries. -/
lemma flatMap_map_length (criteria : List Criterion)
    (f : PageRow → Criterion → ResultEntry) :
    ∀ ps : List PageRow,
      (ps.flatMap (fun p => criteria.map (f p))).length =
        ps.length * criteria.length := by
  intro ps
  induction ps with
  | nil => simp
  | cons p ps ih =>
    simp only [List.flatMap_cons, List.length_append, List.length_map, ih,
      List.length_cons]
    ring

/-- Stamping the edition date twice with the same time is the same as
stamping it once. -/
lemma updateAuditEditDate_idem (uniqueId : String) (now : Nat)
    (audits : List AuditRow) :
    updateAuditEditDate uniqueId now (updateAuditEditDate uniqueId now audits)
      = updateAuditEditDate uniqueId now audits := by
  unfold updateAuditEditDate
  rw [List.map_map]
  refine List.map_congr_left (fun a _ => ?_)
  by_cases h : a.editUniqueId = uniqueId ∧ a.publicationDate ≠ none
  · simp [h]
  · simp [h]

/-- On an unpublished audit the edition-date stamp is a no-op. -/
lemma updateAuditEditDate_unpublished (uniqueId : String) (now : Nat)
    (audits : List AuditRow)
    (h : ∀ a ∈ audits, a.editUniqueId = uniqueId →
      a.publicationDate = none) :
    updateAuditEditDate uniqueId now audits = audits := by
  refine map_id_of_mem (fun a ha => ?_)
  rw [if_neg]
  rintro ⟨h1, h2⟩
  exact h2 (h a ha h1)

/-- The completion check succeeds iff no materialized result row of the
audit has status `NOT_TESTED`. -/
lemma isAuditComplete_iff (db : DB) (uniqueId : String) :
    isAuditComplete db uniqueId = true ↔
      ∀ r ∈ db.results, r.auditUniqueId = uniqueId →
        r.status ≠ CriterionResultStatus.NOT_TESTED := by
  unfold isAuditComplete
  rw [decide_eq_true_eq, List.length_eq_zero, List.filter_eq_nil]
  constructor
  · intro h r hr h1 h2
    have hx := h r hr
    simp only [decide_eq_true_eq] at hx
    exact hx ⟨h1, h2⟩
  · intro h r hr
    simp only [decide_eq_true_eq]
    rintro ⟨h1, h2⟩
    exact h r hr h1 h2

/-- The lookup-miss status is Gone exactly when a trace row carries the
token. -/
lemma sendStatus_gone_iff (db : DB) (uniqueId : String) :
    sendAuditNotFoundStatus db uniqueId = .gone ↔
      ∃ t ∈ db.traces, t.auditEditUniqueId = uniqueId := by
  unfold sendAuditNotFoundStatus
  by_cases h : checkIfAuditWasDeleted db uniqueId = true
  · rw [if_pos h]
    unfold checkIfAuditWasDeleted at h
    obtain ⟨t, ht, hdec⟩ := List.any_eq_true.mp h
    exact ⟨fun _ => ⟨t, ht, of_decide_eq_true hdec⟩, fun _ => rfl⟩
  · rw [if_neg h]
    constructor
    · intro hh; exact absurd hh (by simp)
    · rintro ⟨t, ht, heq⟩
      exact absurd (List.any_eq_true.mpr ⟨t, ht, by simp [heq]⟩) h

/-- The lookup-miss status is Not Found exactly when no trace row
carries the token. -/
lemma sendStatus_notFound_iff (db : DB) (uniqueId : String) :
    sendAuditNotFoundStatus db uniqueId = .notFound ↔
      ∀ t ∈ db.traces, t.auditEditUniqueId ≠ uniqueId := by
  unfold sendAuditNotFoundStatus
  by_cases h : checkIfAuditWasDeleted db uniqueId = true
  · rw [if_pos h]
    unfold checkIfAuditWasDeleted at h
    obtain ⟨t, ht, hdec⟩ := List.any_eq_true.mp h
    constructor
    · intro hh; exact absurd hh (by simp)
    · intro hall
      exact absurd (of_decide_eq_true hdec) (hall t ht)
  · rw [if_neg h]
    refine ⟨fun _ t ht heq => ?_, fun _ => rfl⟩
    exact absurd (List.any_eq_true.mpr ⟨t, ht, by simp [heq]⟩) h

/-- The lookup-miss status is never the Conflict signal. -/
lemma sendStatus_ne_conflict (db : DB) (uniqueId : String) :
    sendAuditNotFoundStatus db uniqueId ≠ .conflict := by
  unfold sendAuditNotFoundStatus
  split
  · simp
  · simp

/-- The lookup-miss status is one of Not Found and Gone. -/
lemma sendStatus_or (db : DB) (uniqueId : String) :
    sendAuditNotFoundStatus db uniqueId = .notFound ∨
      sendAuditNotFoundStatus db uniqueId = .gone := by
  unfold sendAuditNotFoundStatus
  split
  · exact Or.inr rfl
  · exact Or.inl rfl

/-- The audit lookup on a token no audit carries. -/
lemma getAudit_eq_none (db : DB) (uniqueId : String)
    (h : ∀ a ∈ db.audits, a.editUniqueId ≠ uniqueId) :
    getAuditWithEditUniqueId db uniqueId = none :=
  List.find?_eq_none.mpr (fun a ha => by simpa using h a ha)

/-- The audit lookup on a token some audit carries. -/
lemma getAudit_eq_some (db : DB) (uniqueId : String)
    (h : ∃ a ∈ db.audits, a.editUniqueId = uniqueId) :
    ∃ a, getAuditWithEditUniqueId db uniqueId = some a := by
  obtain ⟨a, ha, heq⟩ := h
  exact Option.isSome_iff_exists.mp
    (List.find?_isSome.mpr ⟨a, ha, by simp [heq]⟩)

/-- Inversion of a successful `updateResults`: the condition held and
the new store is the upserted one with a stamped edition date. -/
lemma updateResults_ok_inv (db : DB) (uniqueId : String)
    (body : List UpdateResultItem) (now : Nat) (db' : DB)
    (h : updateResults db uniqueId body now = .ok db') :
    db' =
      { db with
        results := upsertAll ResultRow.key db.results
          (body.map (UpdateResultItem.row uniqueId)),
        audits := updateAuditEditDate uniqueId now db.audits }
    ∧ (body.all (fun item =>
        db.pages.any (fun p =>
          decide (p.auditUniqueId = uniqueId ∧ p.url = item.pageUrl)))
        = true) := by
  unfold updateResults at h
  split at h
  · next hcond => exact ⟨(Except.ok.inj h).symm, hcond⟩
  · exact absurd h (by simp)

/-- When some group is applicable, the accessibility rate is the rounded
percentage of compliant groups among applicable groups. -/
lemma accessibilityRate_eq (results : List ResultRow)
    (h : applicableCriteria results ≠ []) :
    accessibilityRate results =
      some (jsRound (100 * ((compliantCriteria results).length : ℚ) /
        ((applicableCriteria results).length : ℚ))) := by
  have hlen : (applicableCriteria results).length ≠ 0 :=
    fun hl => h (List.length_eq_zero.mp hl)
  have ha : ((applicableCriteria results).length : ℚ) ≠ 0 :=
    Nat.cast_ne_zero.mpr hlen
  unfold accessibilityRate jsDiv
  rw [if_neg ha]
  simp only [Option.map_some']
  congr 1
  unfold jsRound
  congr 1
  ring

/-- C1 (code bug): on the failing input — persisted tools
`[(A, f1, u1)]`, payload `[(A, f2, u2), (B, f1, u1)]` — the
reconciliation keeps the stale persisted row even though its natural key
`(A, f1, u1)` appears nowhere in the payload, because the `deleteMany`
filter of `updateAudit` is a disjunction of per-column `notIn` tests and
each column value of the stale row appears in some payload tool.  The
claim (and the spec's exact-set contract) requires the final key set to
be exactly the payload's. -/
theorem c1_updateTools_keeps_stale_row :
    (updateTools [⟨"A", "f1", "u1"⟩]
        [⟨"A", "f2", "u2"⟩, ⟨"B", "f1", "u1"⟩]).map Tool.key =
      [("A", "f1", "u1"), ("A", "f2", "u2"), ("B", "f1", "u1")]
    ∧ ("A", "f1", "u1") ∉
        ([Tool.mk "A" "f2" "u2", Tool.mk "B" "f1" "u1"].map Tool.key) := by
  constructor
  · decide
  · decide

/-- C2: a stored-result group is applicable iff some result in it is not
`NOT_APPLICABLE`; it is compliant iff it is applicable and every result
in it is `COMPLIANT` or `NOT_APPLICABLE`; the accessibility rate is
`round(100 × compliant / applicable)`; 10 applicable groups with 7
compliant give rate 70; with 0 applicable groups the computation yields
the `NaN` sentinel (`none`) without raising. -/
theorem c2_applicable_compliant_rate :
    (∀ (results : List ResultRow) (g : List ResultRow),
      (g ∈ applicableCriteria results ↔
        g ∈ groupedCriteria results ∧
          ∃ r ∈ g, r.status ≠ CriterionResultStatus.NOT_APPLICABLE)
      ∧ (g ∈ compliantCriteria results ↔
        g ∈ applicableCriteria results ∧
          ∀ r ∈ g, r.status = CriterionResultStatus.COMPLIANT ∨
            r.status = CriterionResultStatus.NOT_APPLICABLE))
    ∧ (∀ results : List ResultRow, applicableCriteria results ≠ [] →
        accessibilityRate results =
          some (jsRound (100 * ((compliantCriteria results).length : ℚ) /
            ((applicableCriteria results).length : ℚ))))
    ∧ accessibilityRate sampleResults = some 70
    ∧ accessibilityRate sampleAllNotApplicable = none := by
  refine ⟨fun results g => ⟨?_, ?_⟩, accessibilityRate_eq, ?_, by decide⟩
  · unfold applicableCriteria
    rw [List.mem_filter, List.any_eq_true]
    simp
  · unfold compliantCriteria
    rw [List.mem_filter, List.all_eq_true]
    simp
  · rw [accessibilityRate_eq sampleResults (by decide),
      show (compliantCriteria sampleResults).length = 7 from by decide,
      show (applicableCriteria sampleResults).length = 10 from by decide]
    norm_num [jsRound]

/-- Witness for C2: the rate formula applied at the concrete ten-group
store. -/
theorem c2_witness :
    applicableCriteria sampleResults ≠ [] ∧
      accessibilityRate sampleResults =
        some (jsRound (100 * ((compliantCriteria sampleResults).length : ℚ) /
          ((applicableCriteria sampleResults).length : ℚ))) :=
  ⟨by decide, c2_applicable_compliant_rate.2.1 sampleResults (by decide)⟩

/-- C5: the completion check succeeds iff zero materialized result rows
of the audit have status `NOT_TESTED`; it is vacuously true on an audit
with no materialized rows; and it is independent of the page table, so
never-materialized (page, criterion) combinations play no role. -/
theorem c5_isAuditComplete (db : DB) (uniqueId : String) :
    (isAuditComplete db uniqueId = true ↔
      ∀ r ∈ db.results, r.auditUniqueId = uniqueId →
        r.status ≠ CriterionResultStatus.NOT_TESTED)
    ∧ ((∀ r ∈ db.results, r.auditUniqueId ≠ uniqueId) →
        isAuditComplete db uniqueId = true)
    ∧ (∀ pages' : List PageRow,
        isAuditComplete { db with pages := pages' } uniqueId =
          isAuditComplete db uniqueId) :=
  ⟨isAuditComplete_iff db uniqueId,
   fun h => (isAuditComplete_iff db uniqueId).mpr
     (fun r hr hu => absurd hu (h r hr)),
   fun _ => rfl⟩

/-- Witness for C5: an audit with zero materialized rows is complete. -/
theorem c5_witness :
    (∀ r ∈ publishedDB.results, r.auditUniqueId ≠ "missing") ∧
      isAuditComplete publishedDB "missing" = true :=
  ⟨by decide, (c5_isAuditComplete publishedDB "missing").2.1 (by decide)⟩

/-- C10 (implicit): the results fetch always resolves to an array (never
`null`), so the controller's not-found branch is unreachable; for a
token carried by no live audit (in a store where every page belongs to a
live audit) the fetch enumerates no pages and returns the empty array
instead of a Not Found or Gone outcome. -/
theorem c10_results_never_notFound (criteria : List Criterion) (db : DB)
    (uniqueId : String) :
    getResultsValue criteria db uniqueId =
      some (getResultsWithEditUniqueId criteria db uniqueId)
    ∧ controllerGetAuditResults criteria db uniqueId =
      .ok (getResultsWithEditUniqueId criteria db uniqueId)
    ∧ ((∀ a ∈ db.audits, a.editUniqueId ≠ uniqueId) →
       (∀ p ∈ db.pages, ∃ a ∈ db.audits,
         a.editUniqueId = p.auditUniqueId) →
       getResultsWithEditUniqueId criteria db uniqueId = []
       ∧ controllerGetAuditResults criteria db uniqueId = .ok []) := by
  refine ⟨rfl, rfl, fun hnone hwf => ?_⟩
  have hpages :
      db.pages.filter (fun p => decide (p.auditUniqueId = uniqueId)) = [] := by
    rw [List.filter_eq_nil]
    intro p hp
    simp only [decide_eq_true_eq]
    intro hpu
    obtain ⟨a, ha, hae⟩ := hwf p hp
    exact hnone a ha (by rw [hae, hpu])
  have hempty : getResultsWithEditUniqueId criteria db uniqueId = [] := by
    unfold getResultsWithEditUniqueId
    rw [hpages]
    rfl
  exact ⟨hempty, by
    unfold controllerGetAuditResults getResultsValue
    rw [hempty]⟩

/-- Witness for C10: a never-issued token on the concrete store gets the
empty matrix, not an error. -/
theorem c10_witness :
    (∀ a ∈ publishedDB.audits, a.editUniqueId ≠ "missing") ∧
      (∀ p ∈ publishedDB.pages, ∃ a ∈ publishedDB.audits,
        a.editUniqueId = p.auditUniqueId) ∧
      controllerGetAuditResults sampleCatalog publishedDB "missing" =
        .ok [] :=
  ⟨by decide, by decide,
   ((c10_results_never_notFound sampleCatalog publishedDB "missing").2.2
     (by decide) (by decide)).2⟩

/-- C3: the synthesized matrix has exactly page-count × catalog-size
entries; when the audit's stored rows have pairwise-distinct
(pageUrl, topic, criterium) keys (the schema's uniqueness constraint),
the entry of a (page, criterion) pair is the stored row at that key when
one exists and otherwise the `NOT_TESTED` placeholder with null comment
fields carrying that page url and that criterion's numbers. -/
theorem c3_results_matrix (criteria : List Criterion) (db : DB)
    (uniqueId : String)
    (huniq : ∀ r₁ ∈ auditResults db uniqueId,
      ∀ r₂ ∈ auditResults db uniqueId,
        r₁.pageUrl = r₂.pageUrl → r₁.topic = r₂.topic →
          r₁.criterium = r₂.criterium → r₁ = r₂) :
    (getResultsWithEditUniqueId criteria db uniqueId).length =
      (db.pages.filter
        (fun p => decide (p.auditUniqueId = uniqueId))).length *
        criteria.length
    ∧ (∀ (page : PageRow) (criterion : Criterion) (r : ResultRow),
        r ∈ auditResults db uniqueId → r.pageUrl = page.url →
          r.topic = criterion.topic → r.criterium = criterion.criterium →
          resultOrPlaceholder (auditResults db uniqueId) page criterion =
            r.toEntry)
    ∧ (∀ (page : PageRow) (criterion : Criterion),
        (∀ r ∈ auditResults db uniqueId,
          ¬(r.pageUrl = page.url ∧ r.topic = criterion.topic ∧
            r.criterium = criterion.criterium)) →
        resultOrPlaceholder (auditResults db uniqueId) page criterion =
          { status := .NOT_TESTED, compliantComment := none,
            errorDescription := none, userImpact := none,
            recommandation := none, notApplicableComment := none,
            topic := criterion.topic, criterium := criterion.criterium,
            pageUrl := page.url }) := by
  refine ⟨?_, ?_, ?_⟩
  · exact flatMap_map_length criteria
      (resultOrPlaceholder (auditResults db uniqueId)) _
  · intro page criterion r hr hpu ht hc
    unfold resultOrPlaceholder
    obtain ⟨r₀, h₀⟩ : ∃ r₀,
        (auditResults db uniqueId).find? (fun result =>
          decide (result.pageUrl = page.url ∧
            result.topic = criterion.topic ∧
            result.criterium = criterion.criterium)) = some r₀ :=
      Option.isSome_iff_exists.mp
        (List.find?_isSome.mpr ⟨r, hr, by simp [hpu, ht, hc]⟩)
    rw [h₀]
    have hmem := List.mem_of_find?_eq_some h₀
    have hp := List.find?_some h₀
    simp only [decide_eq_true_eq] at hp
    obtain ⟨hp1, hp2, hp3⟩ := hp
    rw [huniq r₀ hmem r hr (hp1.trans hpu.symm) (hp2.trans ht.symm)
      (hp3.trans hc.symm)]
  · intro page criterion hno
    unfold resultOrPlaceholder
    rw [List.find?_eq_none.mpr (fun x hx => by simpa using hno x hx)]

/-- Witness for C3: the two-criteria catalog over the one-page store
with one stored result. -/
theorem c3_witness :
    (∀ r₁ ∈ auditResults publishedDB1 "e",
      ∀ r₂ ∈ auditResults publishedDB1 "e",
        r₁.pageUrl = r₂.pageUrl → r₁.topic = r₂.topic →
          r₁.criterium = r₂.criterium → r₁ = r₂) ∧
    (getResultsWithEditUniqueId sampleCatalog publishedDB1 "e").length =
      (publishedDB1.pages.filter
        (fun p => decide (p.auditUniqueId = "e"))).length *
        sampleCatalog.length :=
  ⟨by decide,
   (c3_results_matrix sampleCatalog publishedDB1 "e" (by decide)).1⟩

/-- C6: when the audit lookup misses, the outcome is Gone exactly when a
trace row carries the token and Not Found exactly when none does (never
collapsed); concretely, after create-then-delete the edit token gets
Gone, while a token carried by no audit and no trace gets Not Found. -/
theorem c6_gone_vs_notFound (db : DB) (uniqueId : String) :
    (getAuditWithEditUniqueId db uniqueId = none →
      ((controllerGetAudit db uniqueId = .error .gone ↔
        ∃ t ∈ db.traces, t.auditEditUniqueId = uniqueId)
       ∧ (controllerGetAudit db uniqueId = .error .notFound ↔
        ∀ t ∈ db.traces, t.auditEditUniqueId ≠ uniqueId)))
    ∧ (∀ (dto : CreateAuditDtoM) (e c : String),
        controllerGetAudit ((deleteAudit (createAudit db dto e c) e).1) e =
          .error .gone)
    ∧ ((∀ a ∈ db.audits, a.editUniqueId ≠ uniqueId) →
       (∀ t ∈ db.traces, t.auditEditUniqueId ≠ uniqueId) →
       controllerGetAudit db uniqueId = .error .notFound) := by
  refine ⟨fun hnone => ⟨?_, ?_⟩, fun dto e c => ?_, fun ha ht => ?_⟩
  · unfold controllerGetAudit
    rw [hnone]
    constructor
    · intro h
      exact (sendStatus_gone_iff db uniqueId).mp (Except.error.inj h)
    · intro h
      rw [(sendStatus_gone_iff db uniqueId).mpr h]
  · unfold controllerGetAudit
    rw [hnone]
    constructor
    · intro h
      exact (sendStatus_notFound_iff db uniqueId).mp (Except.error.inj h)
    · intro h
      rw [(sendStatus_notFound_iff db uniqueId).mpr h]
  · have hcond : (createAudit db dto e c).audits.any
        (fun a => decide (a.editUniqueId = e)) = true := by
      simp [createAudit]
    have hdel : (deleteAudit (createAudit db dto e c) e).1 =
        { createAudit db dto e c with
          audits := (createAudit db dto e c).audits.filter
            (fun a => decide (a.editUniqueId ≠ e)),
          pages := (createAudit db dto e c).pages.filter
            (fun p => decide (p.auditUniqueId ≠ e)),
          results := (createAudit db dto e c).results.filter
            (fun r => decide (r.auditUniqueId ≠ e)),
          recipients := (createAudit db dto e c).recipients.filter
            (fun r => decide (r.auditUniqueId ≠ e)),
          tools := (createAudit db dto e c).tools.filter
            (fun t => decide (t.auditUniqueId ≠ e)),
          environments := (createAudit db dto e c).environments.filter
            (fun v => decide (v.auditUniqueId ≠ e)) } := by
      unfold deleteAudit
      rw [if_pos hcond]
    have hmiss : getAuditWithEditUniqueId
        ((deleteAudit (createAudit db dto e c) e).1) e = none := by
      rw [hdel]
      refine List.find?_eq_none.mpr (fun a ha => ?_)
      have := (List.mem_filter.mp ha).2
      simpa using this
    unfold controllerGetAudit
    rw [hmiss]
    have hgone : sendAuditNotFoundStatus
        ((deleteAudit (createAudit db dto e c) e).1) e = .gone := by
      refine (sendStatus_gone_iff _ e).mpr ⟨⟨e, c⟩, ?_, rfl⟩
      rw [hdel]
      exact List.mem_append.mpr (Or.inr (List.mem_singleton.mpr rfl))
    rw [hgone]
  · unfold controllerGetAudit
    rw [getAudit_eq_none db uniqueId ha,
      (sendStatus_notFound_iff db uniqueId).mpr ht]

/-- Witness for C6: on the empty store a never-issued token reports Not
Found. -/
theorem c6_witness :
    (∀ a ∈ emptyDB.audits, a.editUniqueId ≠ "never") ∧
      (∀ t ∈ emptyDB.traces, t.auditEditUniqueId ≠ "never") ∧
      controllerGetAudit emptyDB "never" = .error .notFound :=
  ⟨by decide, by decide,
   (c6_gone_vs_notFound emptyDB "never").2.2 (by decide) (by decide)⟩

/-- The publish endpoint's Conflict branch. -/
lemma controllerPublish_incomplete (db : DB) (uniqueId : String)
    (now : Nat) (hc : ¬ isAuditComplete db uniqueId = true) :
    controllerPublishAudit db uniqueId now = .error (.inl .conflict) := by
  unfold controllerPublishAudit
  rw [if_neg hc]

/-- The publish endpoint when the completion check passes but the audit
is missing. -/
lemma controllerPublish_missing (db : DB) (uniqueId : String) (now : Nat)
    (hc : isAuditComplete db uniqueId = true)
    (hfind : db.audits.find?
      (fun a => decide (a.editUniqueId = uniqueId)) = none) :
    controllerPublishAudit db uniqueId now =
      .error (.inl (sendAuditNotFoundStatus db uniqueId)) := by
  unfold controllerPublishAudit publishAudit publishAuditTx rescueP2025
  rw [if_pos hc, hfind]
  rfl

/-- The publish endpoint when the completion check passes and the audit
exists. -/
lemma controllerPublish_found (db : DB) (uniqueId : String) (now : Nat)
    (a : AuditRow) (hc : isAuditComplete db uniqueId = true)
    (hfind : db.audits.find?
      (fun x => decide (x.editUniqueId = uniqueId)) = some a) :
    controllerPublishAudit db uniqueId now =
      .ok
        ({ db with
           audits := db.audits.map (fun b =>
             if b.editUniqueId = uniqueId then
               { b with publicationDate := some now, editionDate := none }
             else b) },
         { a with publicationDate := some now, editionDate := none }) := by
  unfold controllerPublishAudit publishAudit publishAuditTx rescueP2025
  rw [if_pos hc, hfind]

/-- C4: publish fails with Conflict iff some materialized result row of
the audit is `NOT_TESTED`; when the audit exists and no such row does
(including the zero-row case) it succeeds, setting the publish timestamp
and clearing the edit timestamp to null. -/
theorem c4_publish_conflict (db : DB) (uniqueId : String) (now : Nat) :
    (controllerPublishAudit db uniqueId now = .error (.inl .conflict) ↔
      ∃ r ∈ db.results, r.auditUniqueId = uniqueId ∧
        r.status = CriterionResultStatus.NOT_TESTED)
    ∧ ((∃ a ∈ db.audits, a.editUniqueId = uniqueId) →
       (∀ r ∈ db.results, r.auditUniqueId = uniqueId →
         r.status ≠ CriterionResultStatus.NOT_TESTED) →
       ∃ db' a', controllerPublishAudit db uniqueId now = .ok (db', a')
         ∧ a'.publicationDate = some now ∧ a'.editionDate = none) := by
  constructor
  · by_cases hc : isAuditComplete db uniqueId = true
    · have hnot : ¬ ∃ r ∈ db.results, r.auditUniqueId = uniqueId ∧
          r.status = CriterionResultStatus.NOT_TESTED := by
        rintro ⟨r, hr, h1, h2⟩
        exact (isAuditComplete_iff db uniqueId).mp hc r hr h1 h2
      constructor
      · intro h
        exfalso
        cases hfind : db.audits.find?
            (fun x => decide (x.editUniqueId = uniqueId)) with
        | none =>
          rw [controllerPublish_missing db uniqueId now hc hfind] at h
          exact sendStatus_ne_conflict db uniqueId
            (Sum.inl.inj (Except.error.inj h))
        | some a =>
          rw [controllerPublish_found db uniqueId now a hc hfind] at h
          exact Except.noConfusion h
      · intro h
        exact absurd h hnot
    · constructor
      · intro _
        have hnall : ¬ ∀ r ∈ db.results, r.auditUniqueId = uniqueId →
            r.status ≠ CriterionResultStatus.NOT_TESTED :=
          fun hall => hc ((isAuditComplete_iff db uniqueId).mpr hall)
        push_neg at hnall
        exact hnall
      · intro _
        exact controllerPublish_incomplete db uniqueId now hc
  · rintro ⟨a, ha, hae⟩ hforall
    have hc := (isAuditComplete_iff db uniqueId).mpr hforall
    obtain ⟨a₀, hfind⟩ := getAudit_eq_some db uniqueId ⟨a, ha, hae⟩
    unfold getAuditWithEditUniqueId at hfind
    exact ⟨_, _, controllerPublish_found db uniqueId now a₀ hc hfind,
      rfl, rfl⟩

/-- Witness for C4: publishing the complete concrete audit succeeds and
stamps the timestamps. -/
theorem c4_witness :
    (∃ a ∈ publishedDB.audits, a.editUniqueId = "e") ∧
      (∀ r ∈ publishedDB.results, r.auditUniqueId = "e" →
        r.status ≠ CriterionResultStatus.NOT_TESTED) ∧
      ∃ db' a', controllerPublishAudit publishedDB "e" 5 = .ok (db', a')
        ∧ a'.publicationDate = some 5 ∧ a'.editionDate = none :=
  ⟨by decide, by decide,
   (c4_publish_conflict publishedDB "e" 5).2 (by decide) (by decide)⟩

/-- C7: the `P2025` error (the identity under which a missing target
audit surfaces) is the only error the update path converts into the
not-found outcome — `rescueP2025` yields `none` exactly on `P2025` and
re-raises every other error unchanged; `updateAudit` on a token carried
by no audit reports the not-found outcome; the result-upsert controller
reports Not Found/Gone, without running the batch, when the target audit
is missing, and propagates any persistence error of the batch
unchanged. -/
theorem c7_p2025_identity :
    (∀ r : Except PrismaError DB,
      rescueP2025 r = .ok none ↔ r = .error .p2025)
    ∧ (∀ e : PrismaError, e ≠ .p2025 →
        rescueP2025 (Except.error e : Except PrismaError DB) = .error e)
    ∧ (∀ (db : DB) (uniqueId : String) (data : UpdateAuditDtoM)
        (nextId now : Nat),
        (∀ a ∈ db.audits, a.editUniqueId ≠ uniqueId) →
        updateAudit db uniqueId data nextId now = .ok none)
    ∧ (∀ (db : DB) (uniqueId : String) (body : List UpdateResultItem)
        (now : Nat),
        (∀ a ∈ db.audits, a.editUniqueId ≠ uniqueId) →
        controllerUpdateAuditResults db uniqueId body now =
          .error (.inl (sendAuditNotFoundStatus db uniqueId))
        ∧ (sendAuditNotFoundStatus db uniqueId = .notFound ∨
           sendAuditNotFoundStatus db uniqueId = .gone))
    ∧ (∀ (db : DB) (uniqueId : String) (body : List UpdateResultItem)
        (now : Nat) (e : PrismaError),
        (∃ a ∈ db.audits, a.editUniqueId = uniqueId) →
        updateResults db uniqueId body now = .error e →
        controllerUpdateAuditResults db uniqueId body now =
          .error (.inr e)) := by
  refine ⟨?_, ?_, ?_, ?_, ?_⟩
  · intro r
    cases r with
    | ok a => simp [rescueP2025]
    | error e =>
      by_cases he : e = .p2025
      · subst he; simp [rescueP2025]
      · simp [rescueP2025, he]
  · intro e he
    simp [rescueP2025, he]
  · intro db uniqueId data nextId now h
    unfold updateAudit auditUpdateTx
    rw [List.find?_eq_none.mpr (fun a ha => by simpa using h a ha)]
    rfl
  · intro db uniqueId body now h
    refine ⟨?_, sendStatus_or db uniqueId⟩
    unfold controllerUpdateAuditResults
    rw [getAudit_eq_none db uniqueId h]
  · intro db uniqueId body now e hex herr
    obtain ⟨a₀, hfind⟩ := getAudit_eq_some db uniqueId hex
    unfold controllerUpdateAuditResults
    rw [hfind, herr]

/-- Witness for C7: updating a never-issued token on the empty store
yields the not-found outcome (`none`), not a raw error. -/
theorem c7_witness :
    (∀ a ∈ emptyDB.audits, a.editUniqueId ≠ "never") ∧
      updateAudit emptyDB "never" emptyUpdatePayload 0 0 = .ok none :=
  ⟨by decide,
   c7_p2025_identity.2.2.1 emptyDB "never" emptyUpdatePayload 0 0
     (by decide)⟩

/-- C8: per-page percentages divide the status count on the page by the
fixed catalog size (106) for every page, while per-topic percentages
divide the status count in the topic by the count of stored results
sharing that topic — two different normalization bases; and the
distribution arrays are built exactly from these counts and
percentages. -/
theorem c8_distribution_bases :
    (∀ (results : List ResultRow) (url : String)
        (s : CriterionResultStatus),
      pageStatusPercentage results url s =
        some (100 * (countPageStatus results url s : ℚ) /
          (totalCriteriaCount : ℚ)))
    ∧ (∀ (results : List ResultRow) (number : Nat)
        (s : CriterionResultStatus),
        topicResultCount results number ≠ 0 →
        topicStatusPercentage results number s =
          some (100 * (countTopicStatus results number s : ℚ) /
            (topicResultCount results number : ℚ)))
    ∧ (∀ (results : List ResultRow) (pages : List PageRow)
        (d : ReportDistribution),
        d ∈ pageDistributions results pages → ∃ p ∈ pages,
          d = { name := p.name,
                compliant :=
                  { raw := countPageStatus results p.url .COMPLIANT,
                    percentage :=
                      pageStatusPercentage results p.url .COMPLIANT },
                notApplicable :=
                  { raw := countPageStatus results p.url .NOT_APPLICABLE,
                    percentage :=
                      pageStatusPercentage results p.url .NOT_APPLICABLE },
                notCompliant :=
                  { raw := countPageStatus results p.url .NOT_COMPLIANT,
                    percentage :=
                      pageStatusPercentage results p.url
                        .NOT_COMPLIANT } })
    ∧ (∀ (results : List ResultRow) (topics : List RgaaTopic)
        (d : ReportDistribution),
        d ∈ topicDistributions results topics → ∃ t ∈ topics,
          d = { name := t.topic,
                compliant :=
                  { raw := countTopicStatus results t.number .COMPLIANT,
                    percentage :=
                      topicStatusPercentage results t.number .COMPLIANT },
                notApplicable :=
                  { raw :=
                      countTopicStatus results t.number .NOT_APPLICABLE,
                    percentage :=
                      topicStatusPercentage results t.number
                        .NOT_APPLICABLE },
                notCompliant :=
                  { raw :=
                      countTopicStatus results t.number .NOT_COMPLIANT,
                    percentage :=
                      topicStatusPercentage results t.number
                        .NOT_COMPLIANT } }) := by
  refine ⟨?_, ?_, ?_, ?_⟩
  · intro results url s
    unfold pageStatusPercentage jsDiv
    rw [if_neg (by norm_num [totalCriteriaCount])]
    simp only [Option.map_some']
    congr 1
    ring
  · intro results number s h
    unfold topicStatusPercentage jsDiv
    rw [if_neg (Nat.cast_ne_zero.mpr h)]
    simp only [Option.map_some']
    congr 1
    ring
  · intro results pages d hd
    obtain ⟨p, hp, hfp⟩ := List.mem_map.mp hd
    exact ⟨p, hp, hfp.symm⟩
  · intro results topics d hd
    obtain ⟨t, ht, hft⟩ := List.mem_map.mp hd
    exact ⟨t, ht, hft.symm⟩

/-- Witness for C8: the per-topic formula applied at the concrete
ten-result store. -/
theorem c8_witness :
    topicResultCount sampleResults 1 ≠ 0 ∧
      topicStatusPercentage sampleResults 1 .COMPLIANT =
        some (100 * (countTopicStatus sampleResults 1 .COMPLIANT : ℚ) /
          (topicResultCount sampleResults 1 : ℚ)) :=
  ⟨by decide,
   c8_distribution_bases.2.1 sampleResults 1 .COMPLIANT (by decide)⟩

/-- C9 (counterexample): on the published concrete audit, applying the
same batch twice — the calls stamping the edition date with their
respective (distinct) current times — does not leave the store in the
state one application leaves it in. -/
theorem c9_counterexample :
    updateResultsTwice publishedDB "e" sampleBatch 1 2 ≠
      updateResults publishedDB "e" sampleBatch 1 := by
  decide

/-- C9 (amended): a second application of the same batch leaves every
table except `audits` unchanged — in particular the criterion-result
rows are exactly those of a single application; the whole store
(audit row included) is unchanged when the two calls carry the same
current time, and also whenever the audit is unpublished; only the
edition timestamp of a published audit is refreshed. -/
theorem c9_updateResults_idem (db : DB) (uniqueId : String)
    (body : List UpdateResultItem) (now₁ now₂ : Nat) (db₁ db₂ : DB)
    (h₁ : updateResults db uniqueId body now₁ = .ok db₁)
    (h₂ : updateResults db₁ uniqueId body now₂ = .ok db₂) :
    db₂.results = db₁.results ∧ db₂.pages = db₁.pages
    ∧ db₂.traces = db₁.traces ∧ db₂.recipients = db₁.recipients
    ∧ db₂.tools = db₁.tools ∧ db₂.environments = db₁.environments
    ∧ (now₁ = now₂ → db₂ = db₁)
    ∧ ((∀ a ∈ db.audits, a.editUniqueId = uniqueId →
        a.publicationDate = none) → db₂ = db₁) := by
  obtain ⟨hdb₁, hcond₁⟩ := updateResults_ok_inv _ _ _ _ _ h₁
  obtain ⟨hdb₂, hcond₂⟩ := updateResults_ok_inv _ _ _ _ _ h₂
  subst hdb₁
  subst hdb₂
  refine ⟨?_, rfl, rfl, rfl, rfl, rfl, ?_, ?_⟩
  · exact upsertAll_idem db.results (body.map (UpdateResultItem.row uniqueId))
  · intro h
    subst h
    dsimp only
    rw [upsertAll_idem, updateAuditEditDate_idem]
  · intro hpub
    dsimp only
    rw [updateAuditEditDate_unpublished uniqueId now₁ db.audits hpub,
      updateAuditEditDate_unpublished uniqueId now₂ db.audits hpub,
      upsertAll_idem]

/-- Witness for C9: same batch, same timestamp, on the published
concrete audit — the second application reproduces the state of the
first. -/
theorem c9_witness :
    updateResults publishedDB "e" sampleBatch 1 = .ok publishedDB1
    ∧ updateResults publishedDB1 "e" sampleBatch 1 = .ok publishedDB1
    ∧ publishedDB1 = publishedDB1 :=
  ⟨by decide, by decide,
   (c9_updateResults_idem publishedDB "e" sampleBatch 1 1 publishedDB1
     publishedDB1 (by decide) (by decide)).2.2.2.2.2.2.1 rfl⟩
